import Mathlib

/-!
Shallow embedding of the docling-view coordinate-normalization and
document-model pipeline (src/docling_view/core/normalizer.py,
src/docling_view/core/parser.py, and the data-preparation part of
src/docling_view/renderers/overlay.py).

Python floats are modelled as rationals (the operations verified here are
exact field arithmetic); Python dict fields read with `.get` are modelled
as `Option`; a numeric JSON value on which `float(...)` would raise
`ValueError` (a malformed string) is `RawNum.badValue`, and one on which it
would raise `TypeError` (null, list, dict) is `RawNum.badType`; Python
exceptions are `Except PyErr` with the exception class carried as the
payload, so an `except (KeyError, ValueError)` handler can be modelled as
catching exactly the value-error case. Python dicts used as
insertion-ordered key/value maps are association lists with
replace-in-place insertion (`insertA`) and first-match lookup (`lookupA`).
Strings are ASCII-modelled: `lower`/`upper` map `Char.toLower`/`Char.toUpper`
over the character list.
-/

namespace DoclingView

/-! ## Definitions -/

instance {ε α : Type} [DecidableEq ε] [DecidableEq α] : DecidableEq (Except ε α) :=
  fun a b =>
    match a, b with
    | .error x, .error y =>
      if h : x = y then isTrue (by rw [h])
      else isFalse (by intro hc; cases hc; exact h rfl)
    | .error _, .ok _ => isFalse (by intro hc; cases hc)
    | .ok _, .error _ => isFalse (by intro hc; cases hc)
    | .ok x, .ok y =>
      if h : x = y then isTrue (by rw [h])
      else isFalse (by intro hc; cases hc; exact h rfl)

/-- First-match lookup in an association list (Python `dict.get`). -/
def lookupA {β : Type} : List (Int × β) → Int → Option β
  | [], _ => none
  | (k, v) :: rest, key => if k == key then some v else lookupA rest key

/-- First-match lookup keyed by strings (Python `dict.get`). -/
def lookupS {β : Type} : List (String × β) → String → Option β
  | [], _ => none
  | (k, v) :: rest, key => if k == key then some v else lookupS rest key

/-- Replace-in-place insertion (Python `d[k] = v`: an existing key keeps its
position, a new key is appended). -/
def insertA {β : Type} : List (Int × β) → Int → β → List (Int × β)
  | [], k, v => [(k, v)]
  | (k', v') :: rest, k, v =>
    if k' == k then (k, v) :: rest else (k', v') :: insertA rest k v

/-- Replace-in-place insertion keyed by strings. -/
def insertS {β : Type} : List (String × β) → String → β → List (String × β)
  | [], k, v => [(k, v)]
  | (k', v') :: rest, k, v =>
    if k' == k then (k, v) :: rest else (k', v') :: insertS rest k v

/-- Does the first character list start the second (char-by-char)? -/
def leadsWith : List Char → List Char → Bool
  | [], _ => true
  | _ :: _, [] => false
  | a :: as, b :: bs => a == b && leadsWith as bs

/-- Does `needle` occur contiguously inside the second list?
Models Python `needle in s` for strings. -/
def occursIn (needle : List Char) : List Char → Bool
  | [] => leadsWith needle []
  | c :: rest => leadsWith needle (c :: rest) || occursIn needle rest

/-- Python `sub in s` (substring containment). -/
def containsSub (s sub : String) : Bool := occursIn sub.data s.data

/-- Python `s.endswith(suffix)`. -/
def endsWithB (s suffix : String) : Bool :=
  leadsWith suffix.data.reverse s.data.reverse

/-- Python `s.lower()` (ASCII model). -/
def lowerStr (s : String) : String := ⟨s.data.map Char.toLower⟩

/-- Python `s.upper()` (ASCII model). -/
def upperStr (s : String) : String := ⟨s.data.map Char.toUpper⟩

/-- The kind of Python exception raised by the numeric paths of the parser:
`float(...)` raises `ValueError` on a malformed string and `TypeError` on a
non-numeric non-string value (null, list, dict); `CoordOrigin(...)` raises
`ValueError` on an unknown tag. `KeyError` never arises here because every
dict read uses `.get` with a default. -/
inductive PyErr
  | valueError
  | typeError
  deriving DecidableEq, Repr

/-- A raw JSON numeric field as seen by `float(...)`: a value that converts
to the rational `q`, a value (such as a malformed string) on which `float`
raises `ValueError`, or a value (such as null, a list or a dict) on which
`float` raises `TypeError`. -/
inductive RawNum
  | num (q : ℚ)
  | badValue
  | badType
  deriving DecidableEq, Repr

/-- `float(v.get(key, dflt))`: missing field falls back to `dflt`,
a malformed present field raises the corresponding exception. -/
def floatGet (v : Option RawNum) (dflt : ℚ) : Except PyErr ℚ :=
  match v.getD (.num dflt) with
  | .num q => .ok q
  | .badValue => .error .valueError
  | .badType => .error .typeError

/-- `CoordOrigin` enum from normalizer.py. -/
inductive CoordOrigin
  | bottomleft
  | topleft
  deriving DecidableEq, Repr

/-- The `.value` string of the enum member. -/
def CoordOrigin.value : CoordOrigin → String
  | .bottomleft => "BOTTOMLEFT"
  | .topleft => "TOPLEFT"

/-- `CoordOrigin(origin_str.upper())`: case-insensitive tag parse,
raising (none) on an unknown tag. -/
def parseOrigin (s : String) : Option CoordOrigin :=
  let u := upperStr s
  if u == "BOTTOMLEFT" then some .bottomleft
  else if u == "TOPLEFT" then some .topleft
  else none

/-- Raw bounding-box dict `{l, r, t, b, coord_origin}`. `extra` records
whether the dict carries any further keys, so that Python's truthiness
test `if not bbox_data` is expressible. -/
structure RawBBox where
  l : Option RawNum := none
  r : Option RawNum := none
  t : Option RawNum := none
  b : Option RawNum := none
  coord_origin : Option String := none
  extra : Bool := false
  deriving DecidableEq, Repr

/-- Python `not bbox_data` for the raw bbox dict: true iff the dict is empty. -/
def RawBBox.isEmptyDict (bb : RawBBox) : Bool :=
  bb.l == none && bb.r == none && bb.t == none && bb.b == none &&
  bb.coord_origin == none && !bb.extra

/-- `NormalizedBBox` from normalizer.py: canonical top-left-origin rectangle. -/
structure NormalizedBBox where
  x : ℚ
  y : ℚ
  width : ℚ
  height : ℚ
  deriving DecidableEq, Repr

/-- `NormalizedBBox.scale`: new bbox with all four fields multiplied. -/
def NormalizedBBox.scale (bb : NormalizedBBox) (factor : ℚ) : NormalizedBBox :=
  { x := bb.x * factor, y := bb.y * factor,
    width := bb.width * factor, height := bb.height * factor }

/-- The `{x, y, width, height}` dict produced by serialization helpers. -/
structure BBoxDict where
  x : ℚ
  y : ℚ
  width : ℚ
  height : ℚ
  deriving DecidableEq, Repr

/-- `NormalizedBBox.to_dict`. -/
def NormalizedBBox.to_dict (bb : NormalizedBBox) : BBoxDict :=
  { x := bb.x, y := bb.y, width := bb.width, height := bb.height }

/-- `NormalizedBBox.is_valid`: positive width and height. -/
def NormalizedBBox.is_valid (bb : NormalizedBBox) : Bool :=
  decide (0 < bb.width) && decide (0 < bb.height)

/-- `CoordinateNormalizer.normalize_bbox` (normalizer.py lines 61-103):
reads l/r/t/b with default 0, resolves the origin tag (defaulting to
`default_origin`, case-insensitively), and produces the canonical rectangle.
`Except.error` is a raised `ValueError` (malformed numeric field or
unknown origin tag). -/
def normalize_bbox (bbox : RawBBox) (page_height : ℚ)
    (default_origin : CoordOrigin := .bottomleft) : Except PyErr NormalizedBBox :=
  match floatGet bbox.l 0, floatGet bbox.r 0, floatGet bbox.t 0, floatGet bbox.b 0 with
  | .ok left, .ok right, .ok top, .ok bottom =>
    let origin_str := bbox.coord_origin.getD default_origin.value
    match parseOrigin origin_str with
    | none => .error .valueError
    | some .bottomleft =>
        .ok { x := left, y := page_height - top,
              width := right - left, height := top - bottom }
    | some .topleft =>
        .ok { x := left, y := top,
              width := right - left, height := bottom - top }
  | .error e, _, _, _ => .error e
  | _, .error e, _, _ => .error e
  | _, _, .error e, _ => .error e
  | _, _, _, .error e => .error e

/-- `OverlayRenderer._scale_bbox_xy` (overlay.py lines 197-209). -/
def scale_bbox_xy (bbox : NormalizedBBox) (x_scale y_scale : ℚ) : BBoxDict :=
  { x := bbox.x * x_scale, y := bbox.y * y_scale,
    width := bbox.width * x_scale, height := bbox.height * y_scale }

/-- `DoclingParser._classify_item_type` (parser.py lines 231-247): pure
classification of the raw element's `label` and `type` strings. -/
def classify_item_type (label ty : String) : String :=
  let l := lowerStr label
  let t := lowerStr ty
  if containsSub l "section" || containsSub l "heading" || containsSub l "title" then
    "heading"
  else if containsSub l "table" || t == "table" then
    "table"
  else if containsSub l "picture" || containsSub l "figure" || containsSub l "image" then
    "picture"
  else if containsSub l "list" then
    "list"
  else if containsSub l "header" || containsSub l "footer" || containsSub l "page_number" then
    "furniture"
  else
    "text"

/-- Extracted page dimensions (`{"width": w, "height": h}` entries). -/
structure PageDims where
  width : ℚ
  height : ℚ
  deriving DecidableEq, Repr

/-- Raw `size` dict of a page. -/
structure RawSize where
  width : Option RawNum := none
  height : Option RawNum := none
  deriving DecidableEq, Repr

/-- Raw page record. -/
structure RawPage where
  size : Option RawSize := none
  deriving DecidableEq, Repr

/-- The raw `pages` value: mapping form (keyed by page number) or sequence
form (1-indexed by position). An absent `pages` key reads as the empty
mapping (`data.get("pages", {})`). -/
inductive RawPages
  | dict (entries : List (Int × RawPage))
  | seq (entries : List RawPage)
  deriving DecidableEq, Repr

/-- Raw provenance entry `{page_no, page, bbox}`. -/
structure RawProv where
  page_no : Option Int := none
  page : Option Int := none
  bbox : Option RawBBox := none
  deriving DecidableEq, Repr

/-- Raw text record. -/
structure RawText where
  self_ref : Option String := none
  id : Option String := none
  label : Option String := none
  type : Option String := none
  text : Option String := none
  prov : List RawProv := []
  deriving DecidableEq, Repr

/-- Raw table cell record. -/
structure RawCell where
  bbox : Option RawBBox := none
  row : Option Int := none
  start_row_offset_idx : Option Int := none
  col : Option Int := none
  start_col_offset_idx : Option Int := none
  row_span : Option Int := none
  col_span : Option Int := none
  column_header : Option Bool := none
  row_header : Option Bool := none
  text : Option String := none
  deriving DecidableEq, Repr

/-- Raw cell grid: either a two-dimensional row-major structure (list of
rows) or a flat list of cell records. -/
inductive RawGrid
  | rows (rs : List (List RawCell))
  | flat (cs : List RawCell)
  deriving DecidableEq, Repr

/-- Raw `data` dict of a table. -/
structure RawTableData where
  grid : Option RawGrid := none
  table_cells : Option RawGrid := none
  num_rows : Option Int := none
  num_cols : Option Int := none
  deriving DecidableEq, Repr

/-- Raw table record. -/
structure RawTable where
  self_ref : Option String := none
  id : Option String := none
  label : Option String := none
  type : Option String := none
  prov : List RawProv := []
  data : Option RawTableData := none
  deriving DecidableEq, Repr

/-- Raw picture record. -/
structure RawPicture where
  self_ref : Option String := none
  id : Option String := none
  label : Option String := none
  type : Option String := none
  prov : List RawProv := []
  deriving DecidableEq, Repr

/-- Raw input document. `furniture_children` holds the reference strings
already projected out of the furniture container's `children` list
(`child_ref.get("$ref", "")` for dict entries, `str(child_ref)` otherwise);
an absent or empty `furniture` dict reads as the empty list. -/
structure RawDoc where
  schema_name : Option String := none
  version : Option String := none
  pages : RawPages := .dict []
  texts : List RawText := []
  tables : List RawTable := []
  pictures : List RawPicture := []
  furniture_children : List String := []
  deriving DecidableEq, Repr

/-- `TableCell` dataclass. -/
structure TableCell where
  bbox : NormalizedBBox
  row : Int
  col : Int
  row_span : Int := 1
  col_span : Int := 1
  is_header : Bool := false
  text : String := ""
  deriving DecidableEq, Repr

/-- `DocumentItem` dataclass, with the `TableItem` subclass folded in as the
`isTable` flag plus the `cells`/`num_rows`/`num_cols` extension fields
(`isinstance(item, TableItem)` is `isTable = true`). `orig_label` is the
`metadata = {"orig_label": label}` entry. -/
structure DocumentItem where
  id : String
  type : String
  bbox : NormalizedBBox
  page_no : Int
  label : String
  text : String := ""
  orig_label : String := ""
  children : List String := []
  is_furniture : Bool := false
  isTable : Bool := false
  cells : List TableCell := []
  num_rows : Int := 0
  num_cols : Int := 0
  deriving DecidableEq, Repr

/-- `PageData` dataclass. -/
structure PageData where
  page_no : Int
  width : ℚ
  height : ℚ
  items : List DocumentItem := []
  deriving DecidableEq, Repr

/-- `ParsedDocument` dataclass. `pages` and `items_by_id` are insertion-ordered
dicts modelled as association lists. -/
structure ParsedDocument where
  name : String
  version : String
  pages : List (Int × PageData) := []
  items_by_id : List (String × DocumentItem) := []
  deriving DecidableEq, Repr

/-- `ParsedDocument.get_page_items` (parser.py lines 84-112): per-page item
query with type allow-list (`[]` = no filtering, matching Python's falsy
`None`/`[]`) and furniture toggle. -/
def ParsedDocument.get_page_items (doc : ParsedDocument) (page_no : Int)
    (element_types : List String := []) (include_furniture : Bool := true) :
    List DocumentItem :=
  match lookupA doc.pages page_no with
  | none => []
  | some pd =>
    let items := pd.items
    let items := if element_types.isEmpty then items
      else items.filter (fun i => element_types.contains i.type)
    if include_furniture then items else items.filter (fun i => !i.is_furniture)

/-- `float(size.get("width", 612))` / `float(size.get("height", 792))` for one
page's `size` dict (`page_data.get("size", {})`). -/
def sizeDims (size : Option RawSize) : Except PyErr PageDims :=
  let s := size.getD {}
  match floatGet s.width 612, floatGet s.height 792 with
  | .ok w, .ok h => .ok { width := w, height := h }
  | .error e, _ => .error e
  | _, .error e => .error e

/-- The mapping-form loop of `_extract_page_dimensions`. -/
def buildDimsDict : List (Int × RawPage) → List (Int × PageDims) →
    Except PyErr (List (Int × PageDims))
  | [], acc => .ok acc
  | (pk, pd) :: rest, acc =>
    match sizeDims pd.size with
    | .error e => .error e
    | .ok d => buildDimsDict rest (insertA acc pk d)

/-- The sequence-form loop of `_extract_page_dimensions`
(`enumerate(pages, 1)`). -/
def buildDimsSeq : Int → List RawPage → List (Int × PageDims) →
    Except PyErr (List (Int × PageDims))
  | _, [], acc => .ok acc
  | i, pd :: rest, acc =>
    match sizeDims pd.size with
    | .error e => .error e
    | .ok d => buildDimsSeq (i + 1) rest (insertA acc i d)

/-- `DoclingParser._extract_page_dimensions` (parser.py lines 173-197):
dimensions per page, with the single default 612x792 page synthesized when
no page is declared. -/
def extract_page_dimensions (data : RawDoc) : Except PyErr (List (Int × PageDims)) :=
  match (match data.pages with
         | .dict entries => buildDimsDict entries []
         | .seq entries => buildDimsSeq 1 entries []) with
  | .error e => .error e
  | .ok dims =>
    if dims.isEmpty then
      .ok [(1, { width := 612, height := 792 })]
    else
      .ok dims

/-- The page height used for one provenance entry:
`page_dimensions.get(page_no, {"height": 792})["height"]`. -/
def heightFor (dims : List (Int × PageDims)) (page_no : Int) : ℚ :=
  ((lookupA dims page_no).map PageDims.height).getD 792

/-- `DoclingParser._extract_provenance` (parser.py lines 199-229): per
occurrence, resolve the page number (`page_no`, then `page`, default 1),
skip a missing or empty bbox payload, normalize with that page's height
(default 792), and keep only valid rectangles. The handler at parser.py:226
is `except (KeyError, ValueError)`: a `ValueError` from normalization is
caught (the occurrence is dropped with a warning), while a `TypeError`
(e.g. `float(None)`) is NOT caught and propagates out of the extraction. -/
def extract_provenance (dims : List (Int × PageDims)) :
    List RawProv → Except PyErr (List (Int × NormalizedBBox))
  | [] => .ok []
  | prov :: rest =>
    let page_no := prov.page_no.getD (prov.page.getD 1)
    match prov.bbox with
    | none => extract_provenance dims rest
    | some bb =>
      if bb.isEmptyDict then extract_provenance dims rest
      else
        match normalize_bbox bb (heightFor dims page_no) with
        | .error .valueError => extract_provenance dims rest
        | .error .typeError => .error .typeError
        | .ok nb =>
          if nb.is_valid then
            match extract_provenance dims rest with
            | .error e => .error e
            | .ok tail => .ok ((page_no, nb) :: tail)
          else extract_provenance dims rest

/-- Append an item to the page keyed `page_no` (Python
`doc.pages[page_no].items.append(doc_item)`). -/
def appendToPage : List (Int × PageData) → Int → DocumentItem →
    List (Int × PageData)
  | [], _, _ => []
  | (k, pd) :: rest, page_no, it =>
    if k == page_no then (k, { pd with items := pd.items ++ [it] }) :: rest
    else (k, pd) :: appendToPage rest page_no it

/-- The emission step shared by every collector (parser.py lines 275-277,
336-338, 364-366, 402-404): `doc.items_by_id[item_id] = doc_item`, then
`if page_no in doc.pages: doc.pages[page_no].items.append(doc_item)`. -/
def emit (doc : ParsedDocument) (it : DocumentItem) : ParsedDocument :=
  { doc with
    items_by_id := insertS doc.items_by_id it.id it,
    pages := if (lookupA doc.pages it.page_no).isSome then
        appendToPage doc.pages it.page_no it
      else doc.pages }

/-- The per-record body of `_collect_texts` (parser.py lines 258-277).
`idx` is the record's position, standing in for the `id(item)` component of
the fallback identifier. -/
def collect_text_item (dims : List (Int × PageDims)) (idx : Nat)
    (item : RawText) (doc : ParsedDocument) : Except PyErr ParsedDocument :=
  let item_id := item.self_ref.getD (item.id.getD ("text_" ++ toString idx))
  let label := item.label.getD "text"
  let text := item.text.getD ""
  let item_type := classify_item_type (item.label.getD "") (item.type.getD "")
  match extract_provenance dims item.prov with
  | .error e => .error e
  | .ok occs =>
    .ok (occs.foldl
      (fun d pb =>
        emit d
          { id := item_id, type := item_type, bbox := pb.2, page_no := pb.1,
            label := label, text := text, orig_label := label })
      doc)

/-- Loop of `_collect_texts`. -/
def collect_texts_go (dims : List (Int × PageDims)) :
    List RawText → Nat → ParsedDocument → Except PyErr ParsedDocument
  | [], _, doc => .ok doc
  | item :: rest, idx, doc =>
    match collect_text_item dims idx item doc with
    | .error e => .error e
    | .ok doc => collect_texts_go dims rest (idx + 1) doc

/-- `DoclingParser._collect_texts` (parser.py lines 249-277). -/
def collect_texts (data : RawDoc) (dims : List (Int × PageDims))
    (doc : ParsedDocument) : Except PyErr ParsedDocument :=
  collect_texts_go dims data.texts 0 doc

/-- `cells_to_process` of `_collect_tables` (parser.py lines 307-315): a 2D
grid is flattened row-major, a flat list is used as is. -/
def gridCells : RawGrid → List RawCell
  | .rows rs => rs.flatten
  | .flat cs => cs

/-- The cell loop of `_collect_tables` (parser.py lines 317-331): skip cells
with a missing or empty bbox payload, normalize the rest with the parent
occurrence's page height — with no exception handler, so a malformed cell
box propagates. -/
def buildCells (page_height : ℚ) : List RawCell → List TableCell →
    Except PyErr (List TableCell)
  | [], acc => .ok acc
  | c :: rest, acc =>
    match c.bbox with
    | none => buildCells page_height rest acc
    | some bb =>
      if bb.isEmptyDict then buildCells page_height rest acc
      else
        match normalize_bbox bb page_height with
        | .error e => .error e
        | .ok nb =>
          buildCells page_height rest
            (acc ++ [{ bbox := nb,
                       row := c.row.getD (c.start_row_offset_idx.getD 0),
                       col := c.col.getD (c.start_col_offset_idx.getD 0),
                       row_span := c.row_span.getD 1,
                       col_span := c.col_span.getD 1,
                       is_header := c.column_header.getD false || c.row_header.getD false,
                       text := c.text.getD "" }])

/-- `table_data.get("grid", table_data.get("table_cells", []))` for a raw
table (`table_data = item.get("data", {})`). -/
def tableGrid (item : RawTable) : RawGrid :=
  let tdata := item.data.getD {}
  tdata.grid.getD (tdata.table_cells.getD (.flat []))

/-- The per-occurrence body of `_collect_tables` (parser.py lines 292-338). -/
def table_occurrence (dims : List (Int × PageDims)) (item : RawTable)
    (item_id label : String) (page_no : Int) (bb : NormalizedBBox)
    (doc : ParsedDocument) : Except PyErr ParsedDocument :=
  let tdata := item.data.getD {}
  let page_height := heightFor dims page_no
  match buildCells page_height (gridCells (tableGrid item)) [] with
  | .error e => .error e
  | .ok cells =>
    .ok (emit doc
      { id := item_id, type := "table", bbox := bb, page_no := page_no,
        label := label, text := "", orig_label := label,
        isTable := true, cells := cells,
        num_rows := tdata.num_rows.getD 0, num_cols := tdata.num_cols.getD 0 })

/-- Occurrence loop of `_collect_tables` for one raw table. -/
def table_occurrences (dims : List (Int × PageDims)) (item : RawTable)
    (item_id label : String) :
    List (Int × NormalizedBBox) → ParsedDocument → Except PyErr ParsedDocument
  | [], doc => .ok doc
  | (page_no, bb) :: rest, doc =>
    match table_occurrence dims item item_id label page_no bb doc with
    | .error e => .error e
    | .ok doc => table_occurrences dims item item_id label rest doc

/-- Loop of `_collect_tables` over the raw tables. -/
def collect_tables_go (dims : List (Int × PageDims)) :
    List RawTable → Nat → ParsedDocument → Except PyErr ParsedDocument
  | [], _, doc => .ok doc
  | item :: rest, idx, doc =>
    let item_id := item.self_ref.getD (item.id.getD ("table_" ++ toString idx))
    let label := item.label.getD "table"
    match extract_provenance dims item.prov with
    | .error e => .error e
    | .ok occs =>
      match table_occurrences dims item item_id label occs doc with
      | .error e => .error e
      | .ok doc => collect_tables_go dims rest (idx + 1) doc

/-- `DoclingParser._collect_tables` (parser.py lines 279-338). -/
def collect_tables (data : RawDoc) (dims : List (Int × PageDims))
    (doc : ParsedDocument) : Except PyErr ParsedDocument :=
  collect_tables_go dims data.tables 0 doc

/-- The per-record body of `_collect_pictures` (parser.py lines 349-366). -/
def collect_picture_item (dims : List (Int × PageDims)) (idx : Nat)
    (item : RawPicture) (doc : ParsedDocument) : Except PyErr ParsedDocument :=
  let item_id := item.self_ref.getD (item.id.getD ("picture_" ++ toString idx))
  let label := item.label.getD "picture"
  match extract_provenance dims item.prov with
  | .error e => .error e
  | .ok occs =>
    .ok (occs.foldl
      (fun d pb =>
        emit d
          { id := item_id, type := "picture", bbox := pb.2, page_no := pb.1,
            label := label, text := "", orig_label := label })
      doc)

/-- Loop of `_collect_pictures`. -/
def collect_pictures_go (dims : List (Int × PageDims)) :
    List RawPicture → Nat → ParsedDocument → Except PyErr ParsedDocument
  | [], _, doc => .ok doc
  | item :: rest, idx, doc =>
    match collect_picture_item dims idx item doc with
    | .error e => .error e
    | .ok doc => collect_pictures_go dims rest (idx + 1) doc

/-- `DoclingParser._collect_pictures` (parser.py lines 340-366). -/
def collect_pictures (data : RawDoc) (dims : List (Int × PageDims))
    (doc : ParsedDocument) : Except PyErr ParsedDocument :=
  collect_pictures_go dims data.pictures 0 doc

/-- The per-text body of `_collect_furniture`'s inner loop (parser.py lines
383-404): the suffix-containment match followed by furniture-flagged
emission per surviving occurrence. -/
def furniture_text_item (dims : List (Int × PageDims)) (ref : String)
    (idx : Nat) (item : RawText) (doc : ParsedDocument) :
    Except PyErr ParsedDocument :=
  let item_ref := item.self_ref.getD ""
  if item_ref == ref || endsWithB ref item_ref then
    let item_id := item.self_ref.getD (item.id.getD ("furniture_" ++ toString idx))
    let label := item.label.getD "furniture"
    let text := item.text.getD ""
    match extract_provenance dims item.prov with
    | .error e => .error e
    | .ok occs =>
      .ok (occs.foldl
        (fun d pb =>
          emit d
            { id := item_id, type := "furniture", bbox := pb.2, page_no := pb.1,
              label := label, text := text, orig_label := label,
              is_furniture := true })
        doc)
  else .ok doc

/-- Inner loop of `_collect_furniture` over the raw texts for one reference. -/
def furniture_texts_go (dims : List (Int × PageDims)) (ref : String) :
    List RawText → Nat → ParsedDocument → Except PyErr ParsedDocument
  | [], _, doc => .ok doc
  | item :: rest, idx, doc =>
    match furniture_text_item dims ref idx item doc with
    | .error e => .error e
    | .ok doc => furniture_texts_go dims ref rest (idx + 1) doc

/-- Outer loop of `_collect_furniture` over the furniture child references. -/
def collect_furniture_go (data : RawDoc) (dims : List (Int × PageDims)) :
    List String → ParsedDocument → Except PyErr ParsedDocument
  | [], doc => .ok doc
  | ref :: rest, doc =>
    match furniture_texts_go dims ref data.texts 0 doc with
    | .error e => .error e
    | .ok doc => collect_furniture_go data dims rest doc

/-- `DoclingParser._collect_furniture` (parser.py lines 368-404). -/
def collect_furniture (data : RawDoc) (dims : List (Int × PageDims))
    (doc : ParsedDocument) : Except PyErr ParsedDocument :=
  collect_furniture_go data dims data.furniture_children doc

/-- `DoclingParser.parse` (parser.py lines 142-171): version string, page
dimensions, page records, then the four collectors. `Except.error` is an
exception escaping `parse`. -/
def parse (data : RawDoc) (name : String := "document") :
    Except PyErr ParsedDocument :=
  let version := data.schema_name.getD (data.version.getD "unknown")
  match extract_page_dimensions data with
  | .error e => .error e
  | .ok dims =>
    let doc : ParsedDocument :=
      { name := name, version := version,
        pages := dims.map (fun p =>
          (p.1, { page_no := p.1, width := p.2.width, height := p.2.height, items := [] })),
        items_by_id := [] }
    match collect_texts data dims doc with
    | .error e => .error e
    | .ok doc =>
      match collect_tables data dims doc with
      | .error e => .error e
      | .ok doc =>
        match collect_pictures data dims doc with
        | .error e => .error e
        | .ok doc => collect_furniture data dims doc

/-- The claim's drop conditions for one provenance entry: the entry has no
(or an empty) bounding-box payload, or its box normalizes to a rectangle of
non-positive width or height. -/
def droppableOcc (dims : List (Int × PageDims)) (p : RawProv) : Bool :=
  match p.bbox with
  | none => true
  | some bb =>
    bb.isEmptyDict ||
    (match normalize_bbox bb (heightFor dims (p.page_no.getD (p.page.getD 1))) with
     | .ok nb => !nb.is_valid
     | .error _ => false)

/-- Input for the C3 counterexample: one text whose only occurrence names
page 2, while the document declares no pages (so only the default page 1
exists). -/
def c3doc : RawDoc :=
  { texts := [{ self_ref := some "#/texts/0", text := some "hi",
                prov := [{ page := some 2,
                           bbox := some { l := some (.num 0), r := some (.num 10),
                                          t := some (.num 10), b := some (.num 0) } }] }] }

/-- A concrete single-page document used by the C3 witness. -/
def demoPage : PageData :=
  { page_no := 1, width := 612, height := 792, items := [] }

/-- A concrete document used by the C3 witness. -/
def demoDoc : ParsedDocument :=
  { name := "d", version := "v", pages := [(1, demoPage)] }

/-- A concrete item used by the C3 witness. -/
def demoItem : DocumentItem :=
  { id := "a", type := "text", bbox := { x := 1, y := 2, width := 3, height := 4 },
    page_no := 1, label := "text" }

/-- The page table's shape: key, page number, width and height of every page
record, in order (item lists dropped). -/
def pagesShape (doc : ParsedDocument) : List (Int × Int × ℚ × ℚ) :=
  doc.pages.map (fun p => (p.1, p.2.page_no, p.2.width, p.2.height))

/-- Input for the C6 counterexample: no pages declared, and one table whose
only cell has a malformed numeric bbox field. -/
def c6bad : RawDoc :=
  { tables := [{ self_ref := some "#/tables/0",
                 prov := [{ page := some 1,
                            bbox := some { l := some (.num 0), r := some (.num 10),
                                           t := some (.num 10), b := some (.num 0) } }],
                 data := some { grid := some (.flat [{ bbox := some { l := some .badValue } }]) } }] }

/-- A raw numeric field on which `float(...)` does not raise (absent fields
fall back to defaults and never raise). -/
def goodNum : Option RawNum → Bool
  | some .badValue => false
  | some .badType => false
  | _ => true

/-- A raw bbox whose normalization cannot raise: all four numeric fields
convert and the origin tag (when present) is recognized. -/
def RawBBox.wellFormed (bb : RawBBox) : Bool :=
  goodNum bb.l && goodNum bb.r && goodNum bb.t && goodNum bb.b &&
  (match bb.coord_origin with
   | none => true
   | some s => (parseOrigin s).isSome)

/-- A page `size` dict whose width/height conversions cannot raise. -/
def RawSize.wellFormed (s : RawSize) : Bool :=
  goodNum s.width && goodNum s.height

/-- All declared page sizes are well-formed. -/
def pageSizesWellFormed (data : RawDoc) : Bool :=
  match data.pages with
  | .dict entries => entries.all (fun e => (e.2.size.getD {}).wellFormed)
  | .seq entries => entries.all (fun p => (p.size.getD {}).wellFormed)

/-- A table cell the cell loop cannot raise on: its bbox payload is absent,
empty, or well-formed. -/
def cellWellFormed (c : RawCell) : Bool :=
  match c.bbox with
  | none => true
  | some bb => bb.isEmptyDict || bb.wellFormed

/-- All table-cell bboxes in the document are well-formed. -/
def tableCellsWellFormed (data : RawDoc) : Bool :=
  data.tables.all (fun tb => (gridCells (tableGrid tb)).all cellWellFormed)

/-- A raw numeric field whose `float(...)` conversion cannot raise
`TypeError` (it may still raise the caught `ValueError`). -/
def numNoTypeError : Option RawNum → Bool
  | some .badType => false
  | _ => true

/-- A raw bbox whose numeric fields cannot raise `TypeError`. -/
def RawBBox.noTypeError (bb : RawBBox) : Bool :=
  numNoTypeError bb.l && numNoTypeError bb.r &&
  numNoTypeError bb.t && numNoTypeError bb.b

/-- A provenance entry whose bbox payload (when present) cannot raise
`TypeError` during normalization. -/
def provEntryNoTypeError (p : RawProv) : Bool :=
  match p.bbox with
  | none => true
  | some bb => bb.noTypeError

/-- No entry of the provenance list can raise `TypeError`. -/
def provListNoTypeError (l : List RawProv) : Bool :=
  l.all provEntryNoTypeError

/-- No provenance bbox of any text, table or picture in the document can
raise `TypeError` (the furniture resolver re-scans the texts, so this also
covers it). -/
def provBoxesNoTypeError (data : RawDoc) : Bool :=
  data.texts.all (fun t => provListNoTypeError t.prov) &&
  data.tables.all (fun t => provListNoTypeError t.prov) &&
  data.pictures.all (fun t => provListNoTypeError t.prov)

/-- Input for the C2 counterexample: a structurally present page whose
declared width is a malformed numeric value (`float` raises `ValueError`). -/
def c2bad : RawDoc :=
  { pages := .dict [(1, { size := some { width := some .badValue } })] }

/-- Second input for the C2 counterexample: a text whose provenance bbox
carries a `TypeError`-raising numeric value (a JSON null), which the
`except (KeyError, ValueError)` handler does not catch. -/
def c2badProv : RawDoc :=
  { texts := [{ self_ref := some "#/texts/0",
                prov := [{ page := some 1,
                           bbox := some { l := some .badType, r := some (.num 10),
                                          t := some (.num 10), b := some (.num 0) } }] }] }

/-- Input for the C2 witness: well-formed page sizes and one table with one
well-formed cell bbox. -/
def c2goodCell : RawCell :=
  { bbox := some { l := some (.num 1), r := some (.num 2),
                   t := some (.num 2), b := some (.num 1) } }

def c2goodTable : RawTable :=
  { self_ref := some "#/tables/0",
    prov := [{ page := some 1,
               bbox := some { l := some (.num 0), r := some (.num 10),
                              t := some (.num 10), b := some (.num 0) } }],
    data := some { grid := some (.flat [c2goodCell]),
                   num_rows := some 1, num_cols := some 1 } }

def c2good : RawDoc :=
  { pages := .dict [(1, { size := some { width := some (.num 600),
                                         height := some (.num 800) } })],
    tables := [c2goodTable] }

/-- A raw text record without `self_ref`, used by the C10 witness. -/
def c10item : RawText :=
  { id := some "t0", label := some "page_header", text := some "Running head",
    prov := [{ page := some 1 }] }

/-- `PageImage` dataclass (assets.py lines 58-73). -/
structure PageImage where
  page_no : Int
  filename : String
  width_px : ℕ
  height_px : ℕ
  width_pt : ℚ
  height_pt : ℚ
  scale_factor : ℚ
  deriving DecidableEq, Repr

/-- `PageImage.path`: relative path `assets/<filename>`. -/
def PageImage.path (img : PageImage) : String := "assets/" ++ img.filename

/-- Python slicing `s[:n]` for strings. -/
def takeStr (s : String) (n : ℕ) : String := ⟨s.data.take n⟩

/-- The serialized table-cell record of `_scale_cell_xy`
(overlay.py lines 219-236). -/
structure CellView where
  bbox : BBoxDict
  row : Int
  col : Int
  row_span : Int
  col_span : Int
  is_header : Bool
  text : String
  deriving DecidableEq, Repr

/-- `OverlayRenderer._scale_cell_xy` (overlay.py lines 219-236). -/
def scale_cell_xy (cell : TableCell) (x_scale y_scale : ℚ) : CellView :=
  { bbox := scale_bbox_xy cell.bbox x_scale y_scale,
    row := cell.row, col := cell.col,
    row_span := cell.row_span, col_span := cell.col_span,
    is_header := cell.is_header,
    text := takeStr cell.text 100 }

/-- The optional table extension of a serialized item record: the
`cells`/`num_rows`/`num_cols` keys, present only when the code adds them. -/
structure TableFieldsView where
  cells : List CellView
  num_rows : Int
  num_cols : Int
  deriving DecidableEq, Repr

/-- The serialized item record of `_scale_item_xy` (overlay.py lines
170-195). `table_fields = none` means the dict carries no
`cells`/`num_rows`/`num_cols` keys. -/
structure ItemView where
  id : String
  type : String
  label : String
  text : String
  bbox : BBoxDict
  is_furniture : Bool
  table_fields : Option TableFieldsView
  deriving DecidableEq, Repr

/-- `OverlayRenderer._scale_item_xy` (overlay.py lines 170-195): the table
extension keys are added only under
`isinstance(item, TableItem) and item.cells`. -/
def scale_item_xy (item : DocumentItem) (x_scale y_scale : ℚ) : ItemView :=
  { id := item.id, type := item.type, label := item.label,
    text := takeStr item.text 200,
    bbox := scale_bbox_xy item.bbox x_scale y_scale,
    is_furniture := item.is_furniture,
    table_fields :=
      if item.isTable && !item.cells.isEmpty then
        some { cells := item.cells.map (fun c => scale_cell_xy c x_scale y_scale),
               num_rows := item.num_rows, num_cols := item.num_cols }
      else none }

/-- One page view record of `_prepare_pages_data` (overlay.py lines 151-157). -/
structure PageView where
  page_no : Int
  width : ℚ
  height : ℚ
  image : Option String
  items : List ItemView
  deriving DecidableEq, Repr

/-- `image_map = {img.page_no: img for img in page_images}`. -/
def imageMap (page_images : List PageImage) : List (Int × PageImage) :=
  page_images.foldl (fun m img => insertA m img.page_no img) []

/-- The per-page body of `_prepare_pages_data` (overlay.py lines 115-158):
select items, derive per-axis factors from the rendered image when present
(flat multiplier otherwise), scale, and emit the page view with the image's
pixel dimensions (or the scaled declared dimensions) as viewport. -/
def prepare_page (doc : ParsedDocument) (image_map : List (Int × PageImage))
    (scale : ℚ) (include_furniture : Bool) (element_types : List String)
    (page_no : Int) (page_data : PageData) : PageView :=
  let items := doc.get_page_items page_no element_types include_furniture
  let page_image := lookupA image_map page_no
  let x_scale : ℚ :=
    match page_image with
    | some img => (img.width_px : ℚ) / page_data.width
    | none => scale
  let y_scale : ℚ :=
    match page_image with
    | some img => (img.height_px : ℚ) / page_data.height
    | none => scale
  let scaled_items := items.map (fun it => scale_item_xy it x_scale y_scale)
  let view_width : ℚ :=
    match page_image with
    | some img => (img.width_px : ℚ)
    | none => page_data.width * scale
  let view_height : ℚ :=
    match page_image with
    | some img => (img.height_px : ℚ)
    | none => page_data.height * scale
  { page_no := page_no, width := view_width, height := view_height,
    image := page_image.map PageImage.path, items := scaled_items }

/-- Stable insertion into a key-sorted page list (used to model Python
`sorted(parsed_doc.pages.items())`; page keys are unique). -/
def insertSorted (p : Int × PageData) : List (Int × PageData) → List (Int × PageData)
  | [] => [p]
  | q :: rest => if p.1 ≤ q.1 then p :: q :: rest else q :: insertSorted p rest

/-- Sort the page table by page number (`sorted(parsed_doc.pages.items())`). -/
def sortPages : List (Int × PageData) → List (Int × PageData)
  | [] => []
  | p :: rest => insertSorted p (sortPages rest)

/-- `OverlayRenderer._prepare_pages_data` (overlay.py lines 103-160). -/
def prepare_pages_data (doc : ParsedDocument) (page_images : List PageImage)
    (scale : ℚ) (include_furniture : Bool) (element_types : List String) :
    List PageView :=
  (sortPages doc.pages).map
    (fun p => prepare_page doc (imageMap page_images) scale include_furniture
      element_types p.1 p.2)

/-- A rendered page image used by the C5 witness. -/
def c5img : PageImage :=
  { page_no := 1, filename := "page_1.png", width_px := 1224, height_px := 1584,
    width_pt := 612, height_pt := 792, scale_factor := 2 }

/-- The page view the C5 witness observes. -/
def c5pv : PageView :=
  prepare_page demoDoc (imageMap [c5img]) 2 true [] 1 demoPage

/-- A one-cell table item used by the C7 witness. -/
def c7item : DocumentItem :=
  { id := "#/tables/0", type := "table",
    bbox := { x := 0, y := 0, width := 10, height := 10 },
    page_no := 1, label := "table", isTable := true,
    cells := [{ bbox := { x := 1, y := 1, width := 2, height := 2 },
                row := 0, col := 0 }],
    num_rows := 1, num_cols := 1 }

/-- Input for the C7 counterexample: one table with a valid provenance bbox
and no cell grid at all. -/
def c7doc : RawDoc :=
  { tables := [{ self_ref := some "#/tables/0",
                 prov := [{ page := some 1,
                            bbox := some { l := some (.num 0), r := some (.num 10),
                                           t := some (.num 10), b := some (.num 0) } }] }] }

/-- The parsed form of the C7 counterexample input. -/
def c7parsed : ParsedDocument :=
  match parse c7doc "d" with
  | .ok D => D
  | .error _ => { name := "", version := "" }

/-! ## Theorems -/

/-- Bottom-left normalization formula over arbitrary well-formed numeric
fields (missing fields default to 0) with no origin tag. -/
theorem normalize_bl_general (l r t b : Option ℚ) (h : ℚ) :
    normalize_bbox
      { l := l.map .num, r := r.map .num, t := t.map .num, b := b.map .num,
        coord_origin := none } h =
    .ok { x := l.getD 0, y := h - t.getD 0,
          width := r.getD 0 - l.getD 0, height := t.getD 0 - b.getD 0 } := by
  cases l <;> cases r <;> cases t <;> cases b <;> rfl

/-- C1: normalize with origin bottom-left (the default when the box carries no
origin tag) returns x = l, y = h - t, width = r - l, height = t - b, with
missing keys treated as 0; in particular {l:72,t:144,r:144,b:72} on a 792-tall
page normalizes to {x:72, y:648, width:72, height:72}. -/
theorem normalize_bottomleft_formula :
    (∀ (l r t b : Option ℚ) (h : ℚ),
      normalize_bbox
        { l := l.map .num, r := r.map .num, t := t.map .num, b := b.map .num,
          coord_origin := none } h =
      .ok { x := l.getD 0, y := h - t.getD 0,
            width := r.getD 0 - l.getD 0, height := t.getD 0 - b.getD 0 }) ∧
    normalize_bbox
      { l := some (.num 72), t := some (.num 144), r := some (.num 144),
        b := some (.num 72) } 792 =
      .ok { x := 72, y := 648, width := 72, height := 72 } := by
  refine ⟨normalize_bl_general, ?_⟩
  have h72 : normalize_bbox
      { l := some (.num 72), t := some (.num 144), r := some (.num 144),
        b := some (.num 72) } 792 =
      .ok { x := 72, y := 792 - 144, width := 144 - 72, height := 144 - 72 } :=
    normalize_bl_general (some 72) (some 144) (some 144) (some 72) 792
  rw [h72]
  simp only [Except.ok.injEq, NormalizedBBox.mk.injEq]
  norm_num

/-- C9: uniform scaling `scale(r, k)` produces the same four field values as
per-axis scaling `scaleXY(r, k, k)`; both are pure functions returning fresh
records, so neither mutates its source. -/
theorem scale_eq_scale_xy (r : NormalizedBBox) (k : ℚ) :
    scale_bbox_xy r k k = (r.scale k).to_dict := rfl

/-- C8: classification is a pure function of the declared label/type string
with first-match-wins precedence: section/heading/title-containing labels give
heading; table-like gives table; picture/figure/image-like gives picture;
list-like gives list; header/footer/page-number-like gives furniture; anything
else gives text. -/
theorem classify_precedence (label ty : String) :
    ((containsSub (lowerStr label) "section" || containsSub (lowerStr label) "heading" ||
        containsSub (lowerStr label) "title") = true →
      classify_item_type label ty = "heading") ∧
    ((containsSub (lowerStr label) "section" || containsSub (lowerStr label) "heading" ||
        containsSub (lowerStr label) "title") = false →
      (containsSub (lowerStr label) "table" || lowerStr ty == "table") = true →
      classify_item_type label ty = "table") ∧
    ((containsSub (lowerStr label) "section" || containsSub (lowerStr label) "heading" ||
        containsSub (lowerStr label) "title") = false →
      (containsSub (lowerStr label) "table" || lowerStr ty == "table") = false →
      (containsSub (lowerStr label) "picture" || containsSub (lowerStr label) "figure" ||
        containsSub (lowerStr label) "image") = true →
      classify_item_type label ty = "picture") ∧
    ((containsSub (lowerStr label) "section" || containsSub (lowerStr label) "heading" ||
        containsSub (lowerStr label) "title") = false →
      (containsSub (lowerStr label) "table" || lowerStr ty == "table") = false →
      (containsSub (lowerStr label) "picture" || containsSub (lowerStr label) "figure" ||
        containsSub (lowerStr label) "image") = false →
      containsSub (lowerStr label) "list" = true →
      classify_item_type label ty = "list") ∧
    ((containsSub (lowerStr label) "section" || containsSub (lowerStr label) "heading" ||
        containsSub (lowerStr label) "title") = false →
      (containsSub (lowerStr label) "table" || lowerStr ty == "table") = false →
      (containsSub (lowerStr label) "picture" || containsSub (lowerStr label) "figure" ||
        containsSub (lowerStr label) "image") = false →
      containsSub (lowerStr label) "list" = false →
      (containsSub (lowerStr label) "header" || containsSub (lowerStr label) "footer" ||
        containsSub (lowerStr label) "page_number") = true →
      classify_item_type label ty = "furniture") ∧
    ((containsSub (lowerStr label) "section" || containsSub (lowerStr label) "heading" ||
        containsSub (lowerStr label) "title") = false →
      (containsSub (lowerStr label) "table" || lowerStr ty == "table") = false →
      (containsSub (lowerStr label) "picture" || containsSub (lowerStr label) "figure" ||
        containsSub (lowerStr label) "image") = false →
      containsSub (lowerStr label) "list" = false →
      (containsSub (lowerStr label) "header" || containsSub (lowerStr label) "footer" ||
        containsSub (lowerStr label) "page_number") = false →
      classify_item_type label ty = "text") := by
  refine ⟨?_, ?_, ?_, ?_, ?_, ?_⟩ <;>
    · intros
      simp only [classify_item_type]
      simp_all

/-- Witness for C8 at concrete inputs: a label containing "section" classifies
as heading. -/
theorem classify_precedence_witness :
    classify_item_type "section_header" "" = "heading" :=
  (classify_precedence "section_header" "").1 (by decide)

theorem parseOrigin_BL : parseOrigin "BOTTOMLEFT" = some CoordOrigin.bottomleft := rfl

theorem parseOrigin_TL : parseOrigin "TOPLEFT" = some CoordOrigin.topleft := rfl

theorem parseOrigin_value (d : CoordOrigin) : parseOrigin d.value = some d := by
  cases d <;> rfl

theorem leadsWith_nil (l : List Char) : leadsWith [] l = true := rfl

/-- `ref.endswith("")` is always true. -/
theorem endsWithB_empty (ref : String) : endsWithB ref "" = true := rfl

theorem lookupS_insertS_self {β : Type} (m : List (String × β)) (k : String) (v : β) :
    lookupS (insertS m k v) k = some v := by
  induction m with
  | nil => simp [insertS, lookupS]
  | cons e rest ih =>
    by_cases h : e.1 == k
    · simp [insertS, h, lookupS]
    · simp only [insertS, h]
      simp only [Bool.false_eq_true, if_false, lookupS, h]
      exact ih

theorem lookupA_appendToPage_self (pages : List (Int × PageData)) (n : Int)
    (it : DocumentItem) (pd : PageData) (h : lookupA pages n = some pd) :
    lookupA (appendToPage pages n it) n =
      some { pd with items := pd.items ++ [it] } := by
  induction pages with
  | nil => simp [lookupA] at h
  | cons e rest ih =>
    by_cases he : e.1 == n
    · simp only [lookupA, he, if_true] at h
      cases h
      simp [appendToPage, he, lookupA]
    · simp only [lookupA, he, Bool.false_eq_true, if_false] at h
      simp only [appendToPage, he, Bool.false_eq_true, if_false, lookupA]
      exact ih h

theorem extract_provenance_nil_of_droppable (dims : List (Int × PageDims))
    (l : List RawProv) (h : ∀ p ∈ l, droppableOcc dims p = true) :
    extract_provenance dims l = .ok [] := by
  induction l with
  | nil => rfl
  | cons p rest ih =>
    have hp := h p (by simp)
    have hrest := ih (fun q hq => h q (by simp [hq]))
    simp only [extract_provenance]
    match hbb : p.bbox with
    | none => exact hrest
    | some bb =>
      simp only [droppableOcc, hbb] at hp
      by_cases hemp : bb.isEmptyDict
      · simp [hemp, hrest]
      · simp only [hemp, Bool.false_or] at hp
        simp only [hemp, Bool.false_eq_true, if_false]
        match hn : normalize_bbox bb (heightFor dims (p.page_no.getD (p.page.getD 1))) with
        | .error e =>
          rw [hn] at hp
          simp at hp
        | .ok nb =>
          simp only [hn] at hp
          simp only [Bool.not_eq_true'] at hp
          simp [hp, hrest]

theorem extract_provenance_all_valid (dims : List (Int × PageDims))
    (l : List RawProv) :
    ∀ res, extract_provenance dims l = .ok res →
      ∀ pb ∈ res, pb.2.is_valid = true := by
  induction l with
  | nil =>
    intro res hres
    simp only [extract_provenance] at hres
    cases hres
    simp
  | cons p rest ih =>
    intro res hres
    simp only [extract_provenance] at hres
    match hbb : p.bbox with
    | none =>
      rw [hbb] at hres
      exact ih res hres
    | some bb =>
      rw [hbb] at hres
      by_cases hemp : bb.isEmptyDict
      · simp only [hemp, if_true] at hres
        exact ih res hres
      · simp only [hemp, Bool.false_eq_true, if_false] at hres
        match hn : normalize_bbox bb (heightFor dims (p.page_no.getD (p.page.getD 1))) with
        | .error .valueError =>
          rw [hn] at hres
          exact ih res hres
        | .error .typeError =>
          rw [hn] at hres
          exact absurd hres (by simp)
        | .ok nb =>
          rw [hn] at hres
          by_cases hv : nb.is_valid
          · simp only [hv, if_true] at hres
            match htail : extract_provenance dims rest with
            | .error e =>
              rw [htail] at hres
              exact absurd hres (by simp)
            | .ok tail =>
              rw [htail] at hres
              cases hres
              intro pb hpb
              rcases List.mem_cons.mp hpb with hpb | hpb
              · rw [hpb]
                exact hv
              · exact ih tail htail pb hpb
          · simp only [hv, Bool.false_eq_true, if_false] at hres
            exact ih res hres

/-- C4: every occurrence surviving provenance extraction carries a valid
(positive-dimension) rectangle — so a provenance entry with no bounding-box
payload, or whose box normalizes to a non-positive width or height, yields
no DocumentElement for that occurrence — and a raw text element all of whose
occurrences are dropped this way contributes nothing to the document: no
page's item list changes and the identifier index is untouched. -/
theorem dropped_element_contributes_nothing (dims : List (Int × PageDims))
    (item : RawText) (idx : Nat) (doc : ParsedDocument) :
    (∀ res, extract_provenance dims item.prov = .ok res →
      ∀ pb ∈ res, pb.2.is_valid = true) ∧
    ((∀ p ∈ item.prov, droppableOcc dims p = true) →
      extract_provenance dims item.prov = .ok [] ∧
      collect_text_item dims idx item doc = .ok doc) := by
  refine ⟨extract_provenance_all_valid dims item.prov, fun h => ?_⟩
  have h1 := extract_provenance_nil_of_droppable dims item.prov h
  refine ⟨h1, ?_⟩
  simp [collect_text_item, h1]

/-- A raw text whose only provenance entry lacks a bbox payload, used by
the C4 witness. -/
def c4item : RawText :=
  { self_ref := some "#/texts/0", text := some "hi", prov := [{ page := some 1 }] }

/-- Witness for C4: a text whose only provenance entry lacks a bbox payload
is dropped and leaves the document unchanged. -/
theorem dropped_element_contributes_nothing_witness :
    extract_provenance [(1, { width := 612, height := 792 })] c4item.prov = .ok [] ∧
    collect_text_item [(1, { width := 612, height := 792 })] 0 c4item
        { name := "d", version := "v" } =
      .ok { name := "d", version := "v" } :=
  (dropped_element_contributes_nothing [(1, { width := 612, height := 792 })]
    c4item 0 { name := "d", version := "v" }).2 (by decide)

/-- C3 counterexample: the element occurring on page 2 is inserted into the
identifier index, yet no page's element list receives it (page 2 has no page
record), refuting the claim that every emitted element is appended to the
element list of the page it occurs on whatever page number that occurrence
names. -/
theorem emitted_element_not_always_on_page :
    (parse c3doc "doc").toOption.map
      (fun D => (D.items_by_id.map Prod.fst,
                 D.pages.map (fun p => (p.1, p.2.items)))) =
    some (["#/texts/0"], [(1, [])]) := by
  have hcl : classify_item_type "" "" = "text" := rfl
  norm_num [c3doc, parse, extract_page_dimensions, buildDimsDict, collect_texts,
    collect_texts_go, collect_text_item, extract_provenance, heightFor, lookupA,
    normalize_bbox, floatGet, parseOrigin_BL, CoordOrigin.value,
    NormalizedBBox.is_valid, RawBBox.isEmptyDict, emit, appendToPage, insertS,
    collect_tables, collect_tables_go, collect_pictures, collect_pictures_go,
    collect_furniture, collect_furniture_go, hcl, Except.toOption]

/-- C3 (amended): every emitted element is inserted into the identifier
index; it is appended to its page's element list when that page number has a
page record, and when it does not, the page table is left unchanged (the
occurrence lands on no page). -/
theorem emit_indexes_and_conditionally_appends (doc : ParsedDocument)
    (it : DocumentItem) :
    lookupS (emit doc it).items_by_id it.id = some it ∧
    (∀ pd, lookupA doc.pages it.page_no = some pd →
      lookupA (emit doc it).pages it.page_no =
        some { pd with items := pd.items ++ [it] }) ∧
    (lookupA doc.pages it.page_no = none → (emit doc it).pages = doc.pages) := by
  refine ⟨lookupS_insertS_self doc.items_by_id it.id it, ?_, ?_⟩
  · intro pd hpd
    simp only [emit, hpd, Option.isSome_some, if_true]
    exact lookupA_appendToPage_self doc.pages it.page_no it pd hpd
  · intro hn
    simp [emit, hn]

/-- Witness for C3 (amended) at a concrete document and item: the emitted
item is indexed, and since page 1 exists it is appended to that page. -/
theorem emit_indexes_and_conditionally_appends_witness :
    lookupS (emit demoDoc demoItem).items_by_id demoItem.id = some demoItem ∧
    lookupA (emit demoDoc demoItem).pages demoItem.page_no =
      some { demoPage with items := demoPage.items ++ [demoItem] } :=
  ⟨(emit_indexes_and_conditionally_appends demoDoc demoItem).1,
   (emit_indexes_and_conditionally_appends demoDoc demoItem).2.1 demoPage rfl⟩

theorem appendToPage_shape (pages : List (Int × PageData)) (n : Int)
    (it : DocumentItem) :
    (appendToPage pages n it).map (fun p => (p.1, p.2.page_no, p.2.width, p.2.height)) =
      pages.map (fun p => (p.1, p.2.page_no, p.2.width, p.2.height)) := by
  induction pages with
  | nil => rfl
  | cons e rest ih =>
    by_cases he : e.1 == n
    · simp [appendToPage, he]
    · simp [appendToPage, he, ih]

theorem emit_shape (doc : ParsedDocument) (it : DocumentItem) :
    pagesShape (emit doc it) = pagesShape doc := by
  simp only [emit, pagesShape]
  by_cases h : (lookupA doc.pages it.page_no).isSome
  · simp [h, appendToPage_shape]
  · simp [h]

theorem foldl_emit_shape {α : Type} (f : α → DocumentItem) (l : List α)
    (doc : ParsedDocument) :
    pagesShape (l.foldl (fun d a => emit d (f a)) doc) = pagesShape doc := by
  induction l generalizing doc with
  | nil => rfl
  | cons a rest ih => simp [List.foldl_cons, ih, emit_shape]

theorem collect_text_item_shape (dims : List (Int × PageDims)) (idx : Nat)
    (item : RawText) (doc doc' : ParsedDocument)
    (h : collect_text_item dims idx item doc = .ok doc') :
    pagesShape doc' = pagesShape doc := by
  simp only [collect_text_item] at h
  split at h
  · exact absurd h (by simp)
  · cases h
    exact foldl_emit_shape _ _ doc

theorem collect_texts_go_shape (dims : List (Int × PageDims))
    (l : List RawText) (idx : Nat) (doc doc' : ParsedDocument)
    (h : collect_texts_go dims l idx doc = .ok doc') :
    pagesShape doc' = pagesShape doc := by
  induction l generalizing idx doc with
  | nil =>
    simp only [collect_texts_go] at h
    cases h
    rfl
  | cons item rest ih =>
    simp only [collect_texts_go] at h
    split at h
    · exact absurd h (by simp)
    · rename_i doc1 h1
      rw [ih (idx + 1) doc1 h]
      exact collect_text_item_shape dims idx item doc doc1 h1

theorem table_occurrence_shape (dims : List (Int × PageDims)) (item : RawTable)
    (item_id label : String) (page_no : Int) (bb : NormalizedBBox)
    (doc doc' : ParsedDocument)
    (h : table_occurrence dims item item_id label page_no bb doc = .ok doc') :
    pagesShape doc' = pagesShape doc := by
  simp only [table_occurrence] at h
  split at h
  · exact absurd h (by simp)
  · cases h
    exact emit_shape doc _

theorem table_occurrences_shape (dims : List (Int × PageDims)) (item : RawTable)
    (item_id label : String) (l : List (Int × NormalizedBBox))
    (doc doc' : ParsedDocument)
    (h : table_occurrences dims item item_id label l doc = .ok doc') :
    pagesShape doc' = pagesShape doc := by
  induction l generalizing doc with
  | nil =>
    simp only [table_occurrences] at h
    cases h
    rfl
  | cons pb rest ih =>
    simp only [table_occurrences] at h
    split at h
    · exact absurd h (by simp)
    · rename_i doc1 h1
      rw [ih doc1 h]
      exact table_occurrence_shape dims item item_id label pb.1 pb.2 doc doc1 h1

theorem collect_tables_go_shape (dims : List (Int × PageDims))
    (l : List RawTable) (idx : Nat) (doc doc' : ParsedDocument)
    (h : collect_tables_go dims l idx doc = .ok doc') :
    pagesShape doc' = pagesShape doc := by
  induction l generalizing idx doc with
  | nil =>
    simp only [collect_tables_go] at h
    cases h
    rfl
  | cons item rest ih =>
    simp only [collect_tables_go] at h
    split at h
    · exact absurd h (by simp)
    · rename_i occs hocc
      split at h
      · exact absurd h (by simp)
      · rename_i doc1 h1
        rw [ih (idx + 1) doc1 h]
        exact table_occurrences_shape dims item _ _ occs doc doc1 h1

theorem collect_picture_item_shape (dims : List (Int × PageDims)) (idx : Nat)
    (item : RawPicture) (doc doc' : ParsedDocument)
    (h : collect_picture_item dims idx item doc = .ok doc') :
    pagesShape doc' = pagesShape doc := by
  simp only [collect_picture_item] at h
  split at h
  · exact absurd h (by simp)
  · cases h
    exact foldl_emit_shape _ _ doc

theorem collect_pictures_go_shape (dims : List (Int × PageDims))
    (l : List RawPicture) (idx : Nat) (doc doc' : ParsedDocument)
    (h : collect_pictures_go dims l idx doc = .ok doc') :
    pagesShape doc' = pagesShape doc := by
  induction l generalizing idx doc with
  | nil =>
    simp only [collect_pictures_go] at h
    cases h
    rfl
  | cons item rest ih =>
    simp only [collect_pictures_go] at h
    split at h
    · exact absurd h (by simp)
    · rename_i doc1 h1
      rw [ih (idx + 1) doc1 h]
      exact collect_picture_item_shape dims idx item doc doc1 h1

theorem furniture_text_item_shape (dims : List (Int × PageDims)) (ref : String)
    (idx : Nat) (item : RawText) (doc doc' : ParsedDocument)
    (h : furniture_text_item dims ref idx item doc = .ok doc') :
    pagesShape doc' = pagesShape doc := by
  simp only [furniture_text_item] at h
  split at h
  · split at h
    · exact absurd h (by simp)
    · cases h
      exact foldl_emit_shape _ _ doc
  · cases h
    rfl

theorem furniture_texts_go_shape (dims : List (Int × PageDims)) (ref : String)
    (l : List RawText) (idx : Nat) (doc doc' : ParsedDocument)
    (h : furniture_texts_go dims ref l idx doc = .ok doc') :
    pagesShape doc' = pagesShape doc := by
  induction l generalizing idx doc with
  | nil =>
    simp only [furniture_texts_go] at h
    cases h
    rfl
  | cons item rest ih =>
    simp only [furniture_texts_go] at h
    split at h
    · exact absurd h (by simp)
    · rename_i doc1 h1
      rw [ih (idx + 1) doc1 h]
      exact furniture_text_item_shape dims ref idx item doc doc1 h1

theorem collect_furniture_go_shape (data : RawDoc) (dims : List (Int × PageDims))
    (l : List String) (doc doc' : ParsedDocument)
    (h : collect_furniture_go data dims l doc = .ok doc') :
    pagesShape doc' = pagesShape doc := by
  induction l generalizing doc with
  | nil =>
    simp only [collect_furniture_go] at h
    cases h
    rfl
  | cons ref rest ih =>
    simp only [collect_furniture_go] at h
    split at h
    · exact absurd h (by simp)
    · rename_i doc1 h1
      rw [ih doc1 h]
      exact furniture_texts_go_shape dims ref data.texts 0 doc doc1 h1

theorem collect_texts_shape (data : RawDoc) (dims : List (Int × PageDims))
    (doc doc' : ParsedDocument) (h : collect_texts data dims doc = .ok doc') :
    pagesShape doc' = pagesShape doc :=
  collect_texts_go_shape dims data.texts 0 doc doc' h

theorem collect_tables_shape (data : RawDoc) (dims : List (Int × PageDims))
    (doc doc' : ParsedDocument) (h : collect_tables data dims doc = .ok doc') :
    pagesShape doc' = pagesShape doc :=
  collect_tables_go_shape dims data.tables 0 doc doc' h

theorem collect_pictures_shape (data : RawDoc) (dims : List (Int × PageDims))
    (doc doc' : ParsedDocument) (h : collect_pictures data dims doc = .ok doc') :
    pagesShape doc' = pagesShape doc :=
  collect_pictures_go_shape dims data.pictures 0 doc doc' h

theorem collect_furniture_shape (data : RawDoc) (dims : List (Int × PageDims))
    (doc doc' : ParsedDocument) (h : collect_furniture data dims doc = .ok doc') :
    pagesShape doc' = pagesShape doc :=
  collect_furniture_go_shape data dims data.furniture_children doc doc' h

/-- The page table of a parse result has exactly the shape given by the
extracted page dimensions. -/
theorem parse_pagesShape (data : RawDoc) (name : String)
    (dims : List (Int × PageDims)) (D : ParsedDocument)
    (hdims : extract_page_dimensions data = .ok dims)
    (h : parse data name = .ok D) :
    pagesShape D = dims.map (fun p => (p.1, p.1, p.2.width, p.2.height)) := by
  simp only [parse, hdims] at h
  split at h
  · exact absurd h (by simp)
  · rename_i doc1 h1
    split at h
    · exact absurd h (by simp)
    · rename_i doc2 h2
      split at h
      · exact absurd h (by simp)
      · rename_i doc3 h3
        rw [collect_furniture_shape data dims doc3 D h]
        rw [collect_pictures_shape data dims doc2 doc3 h3]
        rw [collect_tables_shape data dims doc1 doc2 h2]
        rw [collect_texts_shape data dims _ doc1 h1]
        simp [pagesShape, Function.comp]

/-- C6 (amended): for every input that declares no pages at all, the
extracted page-dimension table is exactly one page numbered 1 with width 612
and height 792, and whenever parse returns a Document, that Document contains
exactly one page record, numbered 1, of width 612 and height 792. -/
theorem no_pages_yields_single_default_page (data : RawDoc) (name : String)
    (h : data.pages = RawPages.dict [] ∨ data.pages = RawPages.seq []) :
    extract_page_dimensions data = .ok [(1, { width := 612, height := 792 })] ∧
    (∀ D, parse data name = .ok D → pagesShape D = [(1, 1, 612, 792)]) := by
  have hdims : extract_page_dimensions data = .ok [(1, { width := 612, height := 792 })] := by
    rcases h with h | h <;> simp [extract_page_dimensions, h, buildDimsDict, buildDimsSeq]
  refine ⟨hdims, fun D hD => ?_⟩
  rw [parse_pagesShape data name _ D hdims hD]
  rfl

/-- C6 counterexample: this input declares no pages at all, yet `parse` does
not return a Document — the malformed table-cell bbox raises out of the
parse — refuting the unconditional claim that build returns a one-page
Document for every such input. -/
theorem no_pages_parse_can_raise : parse c6bad "doc" = .error .valueError := by
  norm_num [c6bad, parse, extract_page_dimensions, buildDimsDict, collect_texts,
    collect_texts_go, collect_tables, collect_tables_go, table_occurrences,
    table_occurrence, buildCells, gridCells, extract_provenance, heightFor,
    lookupA, normalize_bbox, floatGet, parseOrigin_BL, CoordOrigin.value,
    NormalizedBBox.is_valid, RawBBox.isEmptyDict, emit, appendToPage, insertS]

/-- Witness for C6 (amended): the empty input declares no pages, parses
successfully, and yields exactly the single default page. -/
theorem no_pages_yields_single_default_page_witness :
    extract_page_dimensions {} = .ok [(1, { width := 612, height := 792 })] ∧
    (∀ D, parse {} "doc" = .ok D → pagesShape D = [(1, 1, 612, 792)]) :=
  no_pages_yields_single_default_page {} "doc" (Or.inl rfl)

theorem floatGet_ok_of_good (v : Option RawNum) (dflt : ℚ)
    (h : goodNum v = true) : ∃ q, floatGet v dflt = .ok q := by
  cases v with
  | none => exact ⟨dflt, rfl⟩
  | some n =>
    cases n with
    | num q => exact ⟨q, rfl⟩
    | badValue => simp [goodNum] at h
    | badType => simp [goodNum] at h

theorem sizeDims_ok (size : Option RawSize)
    (h : (size.getD {}).wellFormed = true) : ∃ d, sizeDims size = .ok d := by
  simp only [RawSize.wellFormed, Bool.and_eq_true] at h
  obtain ⟨w, hw⟩ := floatGet_ok_of_good _ 612 h.1
  obtain ⟨q, hq⟩ := floatGet_ok_of_good _ 792 h.2
  exact ⟨{ width := w, height := q }, by simp [sizeDims, hw, hq]⟩

theorem buildDimsDict_ok (entries : List (Int × RawPage))
    (h : entries.all (fun e => (e.2.size.getD {}).wellFormed) = true) :
    ∀ acc, ∃ r, buildDimsDict entries acc = .ok r := by
  induction entries with
  | nil => exact fun acc => ⟨acc, rfl⟩
  | cons e rest ih =>
    simp only [List.all_cons, Bool.and_eq_true] at h
    intro acc
    obtain ⟨pk, pd⟩ := e
    obtain ⟨d, hd⟩ := sizeDims_ok pd.size h.1
    obtain ⟨r, hr⟩ := ih h.2 (insertA acc pk d)
    exact ⟨r, by simp [buildDimsDict, hd, hr]⟩

theorem buildDimsSeq_ok (entries : List RawPage)
    (h : entries.all (fun p => (p.size.getD {}).wellFormed) = true) :
    ∀ i acc, ∃ r, buildDimsSeq i entries acc = .ok r := by
  induction entries with
  | nil => exact fun i acc => ⟨acc, rfl⟩
  | cons pd rest ih =>
    simp only [List.all_cons, Bool.and_eq_true] at h
    intro i acc
    obtain ⟨d, hd⟩ := sizeDims_ok pd.size h.1
    obtain ⟨r, hr⟩ := ih h.2 (i + 1) (insertA acc i d)
    exact ⟨r, by simp [buildDimsSeq, hd, hr]⟩

theorem extract_page_dimensions_ok (data : RawDoc)
    (h : pageSizesWellFormed data = true) :
    ∃ dims, extract_page_dimensions data = .ok dims := by
  simp only [pageSizesWellFormed] at h
  cases hp : data.pages with
  | dict entries =>
    rw [hp] at h
    obtain ⟨r, hr⟩ := buildDimsDict_ok entries h []
    simp only [extract_page_dimensions, hp, hr]
    split <;> exact ⟨_, rfl⟩
  | seq entries =>
    rw [hp] at h
    obtain ⟨r, hr⟩ := buildDimsSeq_ok entries h 1 []
    simp only [extract_page_dimensions, hp, hr]
    split <;> exact ⟨_, rfl⟩

theorem normalize_bbox_ok (bb : RawBBox) (ph : ℚ) (d : CoordOrigin)
    (h : bb.wellFormed = true) : ∃ nb, normalize_bbox bb ph d = .ok nb := by
  simp only [RawBBox.wellFormed, Bool.and_eq_true] at h
  obtain ⟨⟨⟨⟨hl, hr⟩, ht⟩, hb⟩, ho⟩ := h
  obtain ⟨ql, hl'⟩ := floatGet_ok_of_good _ 0 hl
  obtain ⟨qr, hr'⟩ := floatGet_ok_of_good _ 0 hr
  obtain ⟨qt, ht'⟩ := floatGet_ok_of_good _ 0 ht
  obtain ⟨qb, hb'⟩ := floatGet_ok_of_good _ 0 hb
  cases hres : normalize_bbox bb ph d with
  | ok nb => exact ⟨nb, rfl⟩
  | error e =>
    exfalso
    rcases hor : bb.coord_origin with _ | s
    · cases d <;>
        simp [normalize_bbox, hl', hr', ht', hb', hor, CoordOrigin.value,
          parseOrigin_BL, parseOrigin_TL] at hres
    · rw [hor] at ho
      obtain ⟨o, ho'⟩ := Option.isSome_iff_exists.mp ho
      cases o <;>
        simp [normalize_bbox, hl', hr', ht', hb', hor, ho'] at hres

theorem buildCells_ok (ph : ℚ) (l : List RawCell)
    (h : l.all cellWellFormed = true) :
    ∀ acc, ∃ r, buildCells ph l acc = .ok r := by
  induction l with
  | nil => exact fun acc => ⟨acc, rfl⟩
  | cons c rest ih =>
    simp only [List.all_cons, Bool.and_eq_true] at h
    intro acc
    rcases hcb : c.bbox with _ | bb
    · obtain ⟨r, hr⟩ := ih h.2 acc
      exact ⟨r, by simp [buildCells, hcb, hr]⟩
    · have hc := h.1
      simp only [cellWellFormed, hcb] at hc
      by_cases hemp : bb.isEmptyDict
      · obtain ⟨r, hr⟩ := ih h.2 acc
        exact ⟨r, by simp [buildCells, hcb, hemp, hr]⟩
      · simp only [hemp, Bool.false_or] at hc
        obtain ⟨nb, hnb⟩ := normalize_bbox_ok bb ph .bottomleft hc
        obtain ⟨r, hr⟩ := ih h.2
          (acc ++ [{ bbox := nb,
                     row := c.row.getD (c.start_row_offset_idx.getD 0),
                     col := c.col.getD (c.start_col_offset_idx.getD 0),
                     row_span := c.row_span.getD 1,
                     col_span := c.col_span.getD 1,
                     is_header := c.column_header.getD false || c.row_header.getD false,
                     text := c.text.getD "" }])
        exact ⟨r, by simp [buildCells, hcb, hemp, hnb, hr]⟩

theorem table_occurrence_ok (dims : List (Int × PageDims)) (item : RawTable)
    (item_id label : String) (page_no : Int) (bb : NormalizedBBox)
    (doc : ParsedDocument)
    (h : (gridCells (tableGrid item)).all cellWellFormed = true) :
    ∃ doc', table_occurrence dims item item_id label page_no bb doc = .ok doc' := by
  obtain ⟨cells, hc⟩ := buildCells_ok (heightFor dims page_no) _ h []
  cases hres : table_occurrence dims item item_id label page_no bb doc with
  | ok d' => exact ⟨d', rfl⟩
  | error e =>
    exfalso
    simp [table_occurrence, hc] at hres

theorem table_occurrences_ok (dims : List (Int × PageDims)) (item : RawTable)
    (item_id label : String) (l : List (Int × NormalizedBBox))
    (h : (gridCells (tableGrid item)).all cellWellFormed = true) :
    ∀ doc, ∃ doc', table_occurrences dims item item_id label l doc = .ok doc' := by
  induction l with
  | nil => exact fun doc => ⟨doc, rfl⟩
  | cons pb rest ih =>
    intro doc
    obtain ⟨pn, bb⟩ := pb
    obtain ⟨d1, h1⟩ := table_occurrence_ok dims item item_id label pn bb doc h
    obtain ⟨d2, h2⟩ := ih d1
    exact ⟨d2, by simp [table_occurrences, h1, h2]⟩

theorem floatGet_no_typeError (v : Option RawNum) (dflt : ℚ)
    (h : numNoTypeError v = true) : floatGet v dflt ≠ .error .typeError := by
  cases v with
  | none => simp [floatGet]
  | some n =>
    cases n with
    | num q => simp [floatGet]
    | badValue => simp [floatGet]
    | badType => simp [numNoTypeError] at h

theorem normalize_bbox_no_typeError (bb : RawBBox) (ph : ℚ) (d : CoordOrigin)
    (h : bb.noTypeError = true) :
    normalize_bbox bb ph d ≠ .error .typeError := by
  simp only [RawBBox.noTypeError, Bool.and_eq_true] at h
  obtain ⟨⟨⟨hl, hr⟩, ht⟩, hb⟩ := h
  have Hl := floatGet_no_typeError bb.l 0 hl
  have Hr := floatGet_no_typeError bb.r 0 hr
  have Ht := floatGet_no_typeError bb.t 0 ht
  have Hb := floatGet_no_typeError bb.b 0 hb
  cases h1 : floatGet bb.l 0 with
  | error e =>
    cases e with
    | valueError => simp [normalize_bbox, h1]
    | typeError => exact absurd h1 Hl
  | ok ql =>
    cases h2 : floatGet bb.r 0 with
    | error e =>
      cases e with
      | valueError => simp [normalize_bbox, h1, h2]
      | typeError => exact absurd h2 Hr
    | ok qr =>
      cases h3 : floatGet bb.t 0 with
      | error e =>
        cases e with
        | valueError => simp [normalize_bbox, h1, h2, h3]
        | typeError => exact absurd h3 Ht
      | ok qt =>
        cases h4 : floatGet bb.b 0 with
        | error e =>
          cases e with
          | valueError => simp [normalize_bbox, h1, h2, h3, h4]
          | typeError => exact absurd h4 Hb
        | ok qb =>
          simp only [normalize_bbox, h1, h2, h3, h4]
          cases hp : parseOrigin (bb.coord_origin.getD d.value) with
          | none => simp [hp]
          | some o => cases o <;> simp [hp]

theorem extract_provenance_ok (dims : List (Int × PageDims)) (l : List RawProv)
    (h : provListNoTypeError l = true) :
    ∃ res, extract_provenance dims l = .ok res := by
  induction l with
  | nil => exact ⟨[], rfl⟩
  | cons p rest ih =>
    simp only [provListNoTypeError, List.all_cons, Bool.and_eq_true] at h
    obtain ⟨res, hres⟩ := ih h.2
    rcases hbb : p.bbox with _ | bb
    · exact ⟨res, by simp [extract_provenance, hbb, hres]⟩
    · have hno : bb.noTypeError = true := by
        have hh := h.1
        simp only [provEntryNoTypeError, hbb] at hh
        exact hh
      by_cases hemp : bb.isEmptyDict
      · exact ⟨res, by simp [extract_provenance, hbb, hemp, hres]⟩
      · cases hn : normalize_bbox bb (heightFor dims (p.page_no.getD (p.page.getD 1))) with
        | ok nb =>
          by_cases hv : nb.is_valid
          · exact ⟨(p.page_no.getD (p.page.getD 1), nb) :: res,
              by simp [extract_provenance, hbb, hemp, hn, hv, hres]⟩
          · exact ⟨res, by simp [extract_provenance, hbb, hemp, hn, hv, hres]⟩
        | error e =>
          cases e with
          | valueError =>
            exact ⟨res, by simp [extract_provenance, hbb, hemp, hn, hres]⟩
          | typeError =>
            exact absurd hn (normalize_bbox_no_typeError bb _ _ hno)

theorem collect_text_item_ok (dims : List (Int × PageDims)) (idx : Nat)
    (item : RawText) (doc : ParsedDocument)
    (h : provListNoTypeError item.prov = true) :
    ∃ doc', collect_text_item dims idx item doc = .ok doc' := by
  obtain ⟨res, hres⟩ := extract_provenance_ok dims item.prov h
  cases hc : collect_text_item dims idx item doc with
  | ok d => exact ⟨d, rfl⟩
  | error e =>
    exfalso
    simp [collect_text_item, hres] at hc

theorem collect_texts_go_ok (dims : List (Int × PageDims)) (l : List RawText)
    (h : l.all (fun t => provListNoTypeError t.prov) = true) :
    ∀ idx doc, ∃ doc', collect_texts_go dims l idx doc = .ok doc' := by
  induction l with
  | nil => exact fun idx doc => ⟨doc, rfl⟩
  | cons item rest ih =>
    simp only [List.all_cons, Bool.and_eq_true] at h
    intro idx doc
    obtain ⟨d1, h1⟩ := collect_text_item_ok dims idx item doc h.1
    obtain ⟨d2, h2⟩ := ih h.2 (idx + 1) d1
    exact ⟨d2, by simp [collect_texts_go, h1, h2]⟩

theorem collect_picture_item_ok (dims : List (Int × PageDims)) (idx : Nat)
    (item : RawPicture) (doc : ParsedDocument)
    (h : provListNoTypeError item.prov = true) :
    ∃ doc', collect_picture_item dims idx item doc = .ok doc' := by
  obtain ⟨res, hres⟩ := extract_provenance_ok dims item.prov h
  cases hc : collect_picture_item dims idx item doc with
  | ok d => exact ⟨d, rfl⟩
  | error e =>
    exfalso
    simp [collect_picture_item, hres] at hc

theorem collect_pictures_go_ok (dims : List (Int × PageDims)) (l : List RawPicture)
    (h : l.all (fun t => provListNoTypeError t.prov) = true) :
    ∀ idx doc, ∃ doc', collect_pictures_go dims l idx doc = .ok doc' := by
  induction l with
  | nil => exact fun idx doc => ⟨doc, rfl⟩
  | cons item rest ih =>
    simp only [List.all_cons, Bool.and_eq_true] at h
    intro idx doc
    obtain ⟨d1, h1⟩ := collect_picture_item_ok dims idx item doc h.1
    obtain ⟨d2, h2⟩ := ih h.2 (idx + 1) d1
    exact ⟨d2, by simp [collect_pictures_go, h1, h2]⟩

theorem furniture_text_item_ok (dims : List (Int × PageDims)) (ref : String)
    (idx : Nat) (item : RawText) (doc : ParsedDocument)
    (h : provListNoTypeError item.prov = true) :
    ∃ doc', furniture_text_item dims ref idx item doc = .ok doc' := by
  obtain ⟨res, hres⟩ := extract_provenance_ok dims item.prov h
  cases hc : furniture_text_item dims ref idx item doc with
  | ok d => exact ⟨d, rfl⟩
  | error e =>
    exfalso
    simp only [furniture_text_item] at hc
    split at hc
    · rw [hres] at hc
      simp at hc
    · simp at hc

theorem furniture_texts_go_ok (dims : List (Int × PageDims)) (ref : String)
    (l : List RawText)
    (h : l.all (fun t => provListNoTypeError t.prov) = true) :
    ∀ idx doc, ∃ doc', furniture_texts_go dims ref l idx doc = .ok doc' := by
  induction l with
  | nil => exact fun idx doc => ⟨doc, rfl⟩
  | cons item rest ih =>
    simp only [List.all_cons, Bool.and_eq_true] at h
    intro idx doc
    obtain ⟨d1, h1⟩ := furniture_text_item_ok dims ref idx item doc h.1
    obtain ⟨d2, h2⟩ := ih h.2 (idx + 1) d1
    exact ⟨d2, by simp [furniture_texts_go, h1, h2]⟩

theorem collect_furniture_go_ok (data : RawDoc) (dims : List (Int × PageDims))
    (l : List String)
    (h : data.texts.all (fun t => provListNoTypeError t.prov) = true) :
    ∀ doc, ∃ doc', collect_furniture_go data dims l doc = .ok doc' := by
  induction l with
  | nil => exact fun doc => ⟨doc, rfl⟩
  | cons ref rest ih =>
    intro doc
    obtain ⟨d1, h1⟩ := furniture_texts_go_ok dims ref data.texts h 0 doc
    obtain ⟨d2, h2⟩ := ih d1
    exact ⟨d2, by simp [collect_furniture_go, h1, h2]⟩

theorem collect_tables_go_ok (dims : List (Int × PageDims)) (l : List RawTable)
    (h : l.all (fun tb => (gridCells (tableGrid tb)).all cellWellFormed) = true)
    (hp : l.all (fun t => provListNoTypeError t.prov) = true) :
    ∀ idx doc, ∃ doc', collect_tables_go dims l idx doc = .ok doc' := by
  induction l with
  | nil => exact fun idx doc => ⟨doc, rfl⟩
  | cons item rest ih =>
    simp only [List.all_cons, Bool.and_eq_true] at h hp
    intro idx doc
    obtain ⟨occs, hocc⟩ := extract_provenance_ok dims item.prov hp.1
    obtain ⟨d1, h1⟩ := table_occurrences_ok dims item
      (item.self_ref.getD (item.id.getD ("table_" ++ toString idx)))
      (item.label.getD "table") occs h.1 doc
    obtain ⟨d2, h2⟩ := ih h.2 hp.2 (idx + 1) d1
    exact ⟨d2, by simp [collect_tables_go, hocc, h1, h2]⟩

/-- C2 (amended): `ValueError`-raising numeric fields inside a provenance
bounding box are caught and only drop that occurrence, and `parse` returns a
Document for every input whose page sizes and table-cell bboxes are
well-formed and whose provenance-bbox numerics cannot raise `TypeError` —
but `TypeError`-raising values (null, list, dict) in provenance boxes, and
any malformed numerics in page sizes or nested table-cell boxes, escape
`parse`. -/
theorem parse_ok_of_wellformed (data : RawDoc) (name : String)
    (h1 : pageSizesWellFormed data = true)
    (h2 : tableCellsWellFormed data = true)
    (h3 : provBoxesNoTypeError data = true) :
    ∃ D, parse data name = .ok D := by
  obtain ⟨dims, hdims⟩ := extract_page_dimensions_ok data h1
  simp only [tableCellsWellFormed] at h2
  simp only [provBoxesNoTypeError, Bool.and_eq_true] at h3
  obtain ⟨⟨h3t, h3tb⟩, h3p⟩ := h3
  obtain ⟨d1, hd1⟩ := collect_texts_go_ok dims data.texts h3t 0
    { name := name,
      version := data.schema_name.getD (data.version.getD "unknown"),
      pages := dims.map (fun p =>
        (p.1, { page_no := p.1, width := p.2.width, height := p.2.height,
                items := [] })),
      items_by_id := [] }
  obtain ⟨d2, hd2⟩ := collect_tables_go_ok dims data.tables h2 h3tb 0 d1
  obtain ⟨d3, hd3⟩ := collect_pictures_go_ok dims data.pictures h3p 0 d2
  obtain ⟨d4, hd4⟩ := collect_furniture_go_ok data dims data.furniture_children h3t d3
  refine ⟨d4, ?_⟩
  simp only [parse, hdims, collect_texts, collect_tables, collect_pictures,
    collect_furniture, hd1, hd2, hd3, hd4]

/-- C2 counterexample: malformed numeric fields escape `parse` instead of
being dropped — a `TypeError`-raising value (a JSON null) inside a
provenance bounding box is not caught by the `except (KeyError, ValueError)`
handler at parser.py:226, and a malformed page-size numeric raises with no
handler at all. -/
theorem parse_raises_on_malformed_numerics :
    parse c2badProv "doc" = .error .typeError ∧
    parse c2bad "doc" = .error .valueError :=
  ⟨rfl, rfl⟩

/-- Witness for C2 (amended): `parse` succeeds on a well-formed input with a
declared page and a table with a provenance bbox and one cell. -/
theorem parse_ok_of_wellformed_witness : ∃ D, parse c2good "doc" = .ok D :=
  parse_ok_of_wellformed c2good "doc" (by decide) (by decide) (by decide)

/-- C10: under a furniture child reference with a non-empty reference string,
a raw text record lacking `self_ref` (its reference defaults to "") always
satisfies the suffix-containment match (`ref.endswith("")` is true), so the
furniture resolver takes the emitting branch for that record: one
furniture-flagged DocumentElement per surviving provenance occurrence for
this reference (and a provenance extraction failure propagates from that
same branch). -/
theorem furniture_matches_missing_selfref (dims : List (Int × PageDims))
    (ref : String) (idx : Nat) (item : RawText) (doc : ParsedDocument)
    (h1 : ref ≠ "") (h2 : item.self_ref = none) :
    (item.self_ref.getD "" == ref || endsWithB ref (item.self_ref.getD "")) = true ∧
    (∀ occs, extract_provenance dims item.prov = .ok occs →
      furniture_text_item dims ref idx item doc =
        .ok (occs.foldl
          (fun d pb =>
            emit d
              { id := item.id.getD ("furniture_" ++ toString idx),
                type := "furniture", bbox := pb.2, page_no := pb.1,
                label := item.label.getD "furniture",
                text := item.text.getD "",
                orig_label := item.label.getD "furniture",
                is_furniture := true })
          doc)) ∧
    (∀ e, extract_provenance dims item.prov = .error e →
      furniture_text_item dims ref idx item doc = .error e) := by
  refine ⟨?_, ?_, ?_⟩
  · rw [h2]
    simp [endsWithB_empty]
  · intro occs hocc
    simp [furniture_text_item, h2, endsWithB_empty, hocc]
  · intro e he
    simp [furniture_text_item, h2, endsWithB_empty, he]

/-- Witness for C10: with the non-empty reference "#/texts/0" and a text
record lacking `self_ref`, the match holds and the emitting branch is taken
(its only occurrence has no bbox payload, so nothing is emitted). -/
theorem furniture_matches_missing_selfref_witness :
    (c10item.self_ref.getD "" == "#/texts/0" ||
      endsWithB "#/texts/0" (c10item.self_ref.getD "")) = true ∧
    furniture_text_item [(1, { width := 612, height := 792 })] "#/texts/0" 0
        c10item { name := "d", version := "v" } =
      .ok { name := "d", version := "v" } :=
  ⟨(furniture_matches_missing_selfref [(1, { width := 612, height := 792 })]
      "#/texts/0" 0 c10item { name := "d", version := "v" } (by decide) rfl).1,
   (furniture_matches_missing_selfref [(1, { width := 612, height := 792 })]
      "#/texts/0" 0 c10item { name := "d", version := "v" } (by decide) rfl).2.1
     [] rfl⟩

theorem mem_insertSorted (x p : Int × PageData) (l : List (Int × PageData)) :
    x ∈ insertSorted p l ↔ x = p ∨ x ∈ l := by
  induction l with
  | nil => simp [insertSorted]
  | cons q rest ih =>
    by_cases h : p.1 ≤ q.1
    · simp [insertSorted, h]
    · simp [insertSorted, h, ih]
      tauto

theorem mem_sortPages (x : Int × PageData) (l : List (Int × PageData)) :
    x ∈ sortPages l ↔ x ∈ l := by
  induction l with
  | nil => simp [sortPages]
  | cons p rest ih =>
    simp [sortPages, mem_insertSorted, ih]

/-- C5: for every page in the adapter's output, if a rendered image exists
for that page the per-axis factors are image pixels divided by declared page
dimensions and the viewport is the image's pixel dimensions; otherwise both
factors equal the caller's flat scale multiplier and the viewport is the
declared dimensions times that multiplier. -/
theorem prepare_scale_factors (doc : ParsedDocument) (page_images : List PageImage)
    (scale : ℚ) (include_furniture : Bool) (element_types : List String)
    (pv : PageView)
    (hm : pv ∈ prepare_pages_data doc page_images scale include_furniture element_types) :
    ∃ page_no page_data, (page_no, page_data) ∈ doc.pages ∧
      ((∃ img, lookupA (imageMap page_images) page_no = some img ∧
          pv.width = (img.width_px : ℚ) ∧ pv.height = (img.height_px : ℚ) ∧
          pv.items = (doc.get_page_items page_no element_types include_furniture).map
            (fun it => scale_item_xy it ((img.width_px : ℚ) / page_data.width)
              ((img.height_px : ℚ) / page_data.height))) ∨
       (lookupA (imageMap page_images) page_no = none ∧
          pv.width = page_data.width * scale ∧
          pv.height = page_data.height * scale ∧
          pv.items = (doc.get_page_items page_no element_types include_furniture).map
            (fun it => scale_item_xy it scale scale))) := by
  simp only [prepare_pages_data, List.mem_map] at hm
  obtain ⟨p, hp, hpv⟩ := hm
  rw [mem_sortPages] at hp
  refine ⟨p.1, p.2, hp, ?_⟩
  cases himg : lookupA (imageMap page_images) p.1 with
  | some img =>
    left
    refine ⟨img, rfl, ?_, ?_, ?_⟩ <;>
      · subst hpv
        simp [prepare_page, himg]
  | none =>
    right
    refine ⟨rfl, ?_, ?_, ?_⟩ <;>
      · subst hpv
        simp [prepare_page, himg]

/-- Witness for C5: on a one-page document with a rendered image, the output
page view satisfies the image-derived factor and viewport equations. -/
theorem prepare_scale_factors_witness :
    ∃ page_no page_data, (page_no, page_data) ∈ demoDoc.pages ∧
      ((∃ img, lookupA (imageMap [c5img]) page_no = some img ∧
          c5pv.width = (img.width_px : ℚ) ∧ c5pv.height = (img.height_px : ℚ) ∧
          c5pv.items = (demoDoc.get_page_items page_no [] true).map
            (fun it => scale_item_xy it ((img.width_px : ℚ) / page_data.width)
              ((img.height_px : ℚ) / page_data.height))) ∨
       (lookupA (imageMap [c5img]) page_no = none ∧
          c5pv.width = page_data.width * 2 ∧
          c5pv.height = page_data.height * 2 ∧
          c5pv.items = (demoDoc.get_page_items page_no [] true).map
            (fun it => scale_item_xy it 2 2))) :=
  prepare_scale_factors demoDoc [c5img] 2 true [] c5pv
    (by simp [c5pv, prepare_pages_data, demoDoc, sortPages, insertSorted])

/-- C7 (amended): the serialized item record of a table carries the
`cells`/`num_rows`/`num_cols` extension exactly when the table owns at least
one cell; a zero-cell table's record omits those fields. -/
theorem table_fields_presence (item : DocumentItem) (x_scale y_scale : ℚ) :
    (item.isTable = true → item.cells ≠ [] →
      (scale_item_xy item x_scale y_scale).table_fields =
        some { cells := item.cells.map (fun c => scale_cell_xy c x_scale y_scale),
               num_rows := item.num_rows, num_cols := item.num_cols }) ∧
    (item.cells = [] →
      (scale_item_xy item x_scale y_scale).table_fields = none) := by
  constructor
  · intro ht hc
    have hne : item.cells.isEmpty = false := by
      cases hcl : item.cells with
      | nil => exact absurd hcl hc
      | cons a as => rfl
    simp [scale_item_xy, ht, hne]
  · intro hc
    simp [scale_item_xy, hc]

/-- Witness for C7 (amended): a one-cell table's record carries the table
extension, and the same item with its cells removed omits it. -/
theorem table_fields_presence_witness :
    (scale_item_xy c7item 1 1).table_fields =
      some { cells := c7item.cells.map (fun c => scale_cell_xy c 1 1),
             num_rows := c7item.num_rows, num_cols := c7item.num_cols } ∧
    (scale_item_xy { c7item with cells := [] } 1 1).table_fields = none :=
  ⟨(table_fields_presence c7item 1 1).1 rfl (by simp [c7item]),
   (table_fields_presence { c7item with cells := [] } 1 1).2 rfl⟩

/-- C7 counterexample: a zero-cell table selected for page 1 is serialized
by the adapter WITHOUT the `cells`/`num_rows`/`num_cols` fields, refuting
the claim that table records carry them including when the table owns zero
cells. -/
theorem zero_cell_table_record_omits_fields :
    (prepare_pages_data c7parsed [] 1 true []).map
      (fun pv => pv.items.map (fun iv => (iv.type, iv.table_fields))) =
    [[("table", none)]] := by
  norm_num [c7parsed, c7doc, parse, extract_page_dimensions, buildDimsDict,
    collect_texts, collect_texts_go, collect_tables, collect_tables_go,
    table_occurrences, table_occurrence, buildCells, gridCells, tableGrid,
    extract_provenance, heightFor, lookupA, normalize_bbox, floatGet,
    parseOrigin_BL, CoordOrigin.value, NormalizedBBox.is_valid,
    RawBBox.isEmptyDict, emit, appendToPage, insertS, collect_pictures,
    collect_pictures_go, collect_furniture, collect_furniture_go,
    prepare_pages_data, prepare_page, sortPages, insertSorted, imageMap,
    ParsedDocument.get_page_items, scale_item_xy]

end DoclingView
